import Mathlib

/-!
Shallow embedding of `src/main.py`, the visual-search grid generator of the
Dual-Task study tooling.

The Python program draws from one global, seeded random stream
(`random.seed(42)`).  We model that stream as a function `Nat → Nat`
(an infinite tape of raw draws); every primitive draw consumes the head and
advances the tape.  The unbounded `while` loops of the source
(unique-value rejection sampling, empty-cell search, occupied-cell search)
are modelled with fuel: a run that exhausts its fuel returns `none`, and a
loop that never terminates returns `none` for every fuel.  `uuid.uuid4()`
does not touch the seeded stream in Python, so identifiers come from a
separate tape `Nat → String`.
-/

/-- The raw random tape. -/
def RngSt : Type := Nat → Nat

/-- Advance the tape by one draw. -/
def adv (s : RngSt) : RngSt := fun i => s (i + 1)

/-- Model of Python `random.randint(a, b)`: a value in `[a, b]` (when
`a ≤ b`) determined by the head of the tape. -/
def randInt (a b : Int) (s : RngSt) : Int × RngSt :=
  (a + Int.ofNat (s 0 % (b - a + 1).toNat), adv s)

/-- Model of Python `random.random() < p` (the Bernoulli trial of
`generate_random_grid`): the tape head is reduced to a rational
`u / 1000000` in `[0, 1)` and compared with `p`.  The comparison
`u / 1000000 < p` is evaluated by cross-multiplication with `p.den > 0`,
which keeps it kernel-computable. -/
def bernoulliTrial (p : ℚ) (s : RngSt) : Bool × RngSt :=
  (decide ((s 0 % 1000000 : Int) * (p.den : Int) < p.num * 1000000), adv s)

/-- A grid column (`grid[x]` in the source): `height` optional cells. -/
abbrev Col : Type := List (Option Int)

/-- A grid: `width` columns (the source indexes `grid[x][y]`). -/
abbrev Grid : Type := List Col

/-- `get_grid(width, height)` of the source: a `width × height` array of
`None`. -/
def get_grid (w h : Nat) : Grid :=
  List.replicate w (List.replicate h (none : Option Int))

/-- Read `grid[x][y]`; out-of-range reads give `none`. -/
def getCell (g : Grid) (x y : Nat) : Option Int :=
  ((g.get? x).bind fun col => col.get? y).join

/-- Write `grid[x][y] = v`; out-of-range writes are dropped. -/
def setCell (g : Grid) (x y : Nat) (v : Option Int) : Grid :=
  g.set x ((g.getD x []).set y v)

/-- All non-empty cell values of a grid, in column-major order. -/
def gridVals (g : Grid) : List Int :=
  g.flatten.filterMap id

/-- The non-empty values of one column. -/
def colVals (c : Col) : List Int := c.filterMap id

/-- The grid has `w` columns of `h` cells each. -/
def gridDims (w h : Nat) (g : Grid) : Prop :=
  g.length = w ∧ ∀ c ∈ g, c.length = h

/-- Python set insertion (`values_set.add`): duplicates are ignored. -/
def insertValue (acc : List Int) (v : Int) : List Int :=
  if v ∈ acc then acc else v :: acc

/-- The rejection-sampling loop of `get_unique_random_values`
(`while len(values_set) < number_of_stimuli`), with fuel.  The condition is
tested before fuel is spent, matching `while` semantics. -/
def sampleLoop (n : Nat) (minV maxV : Int) (excl : List Int) :
    Nat → List Int → RngSt → Option (List Int × RngSt)
  | 0, acc, s => if acc.length < n then none else some (acc, s)
  | fuel + 1, acc, s =>
    if acc.length < n then
      if (randInt minV maxV s).1 ∈ excl then
        sampleLoop n minV maxV excl fuel acc (randInt minV maxV s).2
      else
        sampleLoop n minV maxV excl fuel
          (insertValue acc (randInt minV maxV s).1) (randInt minV maxV s).2
    else some (acc, s)

/-- One pass of `random.shuffle` modelled as draw-driven selection: pick a
tape-determined index, move that element to the front of the result,
recurse on the rest.  The fuel argument is instantiated with the list
length, so it never runs out. -/
def shuffleGo : Nat → List Int → RngSt → List Int × RngSt
  | 0, l, s => (l, s)
  | _ + 1, [], s => ([], s)
  | fuel + 1, a :: l, s =>
    let j := s 0 % (a :: l).length
    let rest := (a :: l).eraseIdx j
    let p := shuffleGo fuel rest (adv s)
    ((a :: l).getD j 0 :: p.1, p.2)

/-- `random.shuffle(values_list)`. -/
def shuffleList (l : List Int) (s : RngSt) : List Int × RngSt :=
  shuffleGo l.length l s

/-- `get_unique_random_values` of the source: rejection-sample `n` distinct
values in `[min_value, max_value]` avoiding `numbers_to_exclude`, then
shuffle. -/
def get_unique_random_values (fuel n : Nat) (minV maxV : Int)
    (excl : List Int) (s : RngSt) : Option (List Int × RngSt) :=
  (sampleLoop n minV maxV excl fuel [] s).map fun r => shuffleList r.1 r.2

/-- The empty-cell search of the placement loop (`while True: draw (x, y);
stop when grid[x][y] is None`), with fuel.  Two `randint` draws per
iteration, as in the source. -/
def findEmpty (w h : Nat) (g : Grid) : Nat → RngSt → Option (Nat × Nat × RngSt)
  | 0, _ => none
  | fuel + 1, s =>
    let x := s 0 % w
    let y := s 1 % h
    match getCell g x y with
    | none => some (x, y, adv (adv s))
    | some _ => findEmpty w h g fuel (adv (adv s))

/-- The `for value_to_insert in values_list` placement loop of
`generate_random_grid`. -/
def placeValues (fuel w h : Nat) :
    List Int → Grid → RngSt → Option (Grid × RngSt)
  | [], g, s => some (g, s)
  | v :: vs, g, s =>
    match findEmpty w h g fuel s with
    | none => none
    | some (x, y, s1) => placeValues fuel w h vs (setCell g x y (some v)) s1

/-- The occupied-cell search of the target-substitution step
(`while True: draw (x, y); stop when grid[x][y] is not None`), with fuel. -/
def findOccupied (w h : Nat) (g : Grid) : Nat → RngSt → Option (Nat × Nat × RngSt)
  | 0, _ => none
  | fuel + 1, s =>
    let x := s 0 % w
    let y := s 1 % h
    match getCell g x y with
    | none => findOccupied w h g fuel (adv (adv s))
    | some _ => some (x, y, adv (adv s))

/-- `generate_random_grid` of the source: sample unique non-target values,
place each in a random empty cell, then with probability `p` overwrite a
random occupied cell with the target.  Returns the grid and the
target-inclusion flag, or `none` when a loop exhausts its fuel. -/
def generate_random_grid (fuel w h n : Nat) (minV maxV target : Int)
    (p : ℚ) (s : RngSt) : Option (Grid × Bool × RngSt) :=
  match get_unique_random_values fuel n minV maxV [target] s with
  | none => none
  | some (vals, s1) =>
    match placeValues fuel w h vals (get_grid w h) s1 with
    | none => none
    | some (g, s2) =>
      if (bernoulliTrial p s2).1 then
        match findOccupied w h g fuel (bernoulliTrial p s2).2 with
        | none => none
        | some (x, y, s3) => some (setCell g x y (some target), true, s3)
      else some (g, false, (bernoulliTrial p s2).2)

/-- Observable part of `generate_random_grid`: the grid and the flag
(the final tape is dropped). -/
def genGrid (fuel w h n : Nat) (minV maxV target : Int)
    (p : ℚ) (s : RngSt) : Option (Grid × Bool) :=
  (generate_random_grid fuel w h n minV maxV target p s).map
    fun r => (r.1, r.2.1)

/-- Observable part of `get_unique_random_values`: the value list. -/
def sampleValues (fuel n : Nat) (minV maxV : Int)
    (excl : List Int) (s : RngSt) : Option (List Int) :=
  (get_unique_random_values fuel n minV maxV excl s).map fun r => r.1

/-- The integers of `[minV, maxV]`, in order. -/
def intRange (minV maxV : Int) : List Int :=
  (List.range (maxV - minV + 1).toNat).map fun i => minV + (i : Int)

/-- How many distinct integers of `[minV, maxV]` avoid `excl`: the size of
the pool the rejection sampler draws from. -/
def availCount (minV maxV : Int) (excl : List Int) : Nat :=
  ((intRange minV maxV).filter fun v => decide (v ∉ excl)).length

/-- The all-zeros tape, used to evaluate the model on concrete runs. -/
def sZero : RngSt := fun _ => 0

/-- The configuration of `main`, as read from `config.json`
(source lines 107-119). -/
structure Config where
  gridWidth : Nat
  gridHeight : Nat
  gridMinValue : Int
  gridMaxValue : Int
  gridTargetNumber : Int
  gridTargetNumberInclusionProbability : ℚ
  gridNumberOfStimuli : Nat
  studyConditions : List String
  studyNumberOfGridsPerCondition : Nat
  studySessions : List String
deriving DecidableEq

/-- The version tag written into every record. -/
def VERSION : String := "1.1"

/-- One output record of `main` (the dict built at source lines 140-156). -/
structure GridRecord where
  id : String
  version : String
  session : String
  condition : String
  targetNumber : Int
  doesIncludeTargetNumber : Bool
  width : Nat
  height : Nat
  minValue : Int
  maxValue : Int
  targetNumberInclusionProbability : ℚ
  numberOfStimuli : Nat
  gridIndexInCondition : Nat
  numberOfGridsPerCondition : Nat
  values : Grid
deriving DecidableEq

/-- Build one output record from the configuration, the loop labels, the
fresh identifier and the generated grid. -/
def mkRecord (cfg : Config) (sess cond : String) (i : Nat) (theId : String)
    (g : Grid) (b : Bool) : GridRecord :=
  ⟨theId, VERSION, sess, cond, cfg.gridTargetNumber, b, cfg.gridWidth,
    cfg.gridHeight, cfg.gridMinValue, cfg.gridMaxValue,
    cfg.gridTargetNumberInclusionProbability, cfg.gridNumberOfStimuli, i,
    cfg.studyNumberOfGridsPerCondition, g⟩

/-- The inner loop of `main` (`for grid_index_in_condition in range(...)`):
one record per index.  `u` is the position in the identifier tape
(`uuid.uuid4()` calls). -/
def runIndices (fuel : Nat) (cfg : Config) (ids : Nat → String)
    (sess cond : String) :
    List Nat → Nat → RngSt → Option (List GridRecord × Nat × RngSt)
  | [], u, s => some ([], u, s)
  | i :: rest, u, s =>
    match generate_random_grid fuel cfg.gridWidth cfg.gridHeight
        cfg.gridNumberOfStimuli cfg.gridMinValue cfg.gridMaxValue
        cfg.gridTargetNumber cfg.gridTargetNumberInclusionProbability s with
    | none => none
    | some (g, b, s1) =>
      match runIndices fuel cfg ids sess cond rest (u + 1) s1 with
      | none => none
      | some (recs, u1, s2) =>
        some (mkRecord cfg sess cond i (ids u) g b :: recs, u1, s2)

/-- The middle loop of `main` (`for condition in conditions`). -/
def runConditions (fuel : Nat) (cfg : Config) (ids : Nat → String)
    (sess : String) :
    List String → Nat → RngSt → Option (List GridRecord × Nat × RngSt)
  | [], u, s => some ([], u, s)
  | c :: cs, u, s =>
    match runIndices fuel cfg ids sess c
        (List.range cfg.studyNumberOfGridsPerCondition) u s with
    | none => none
    | some (r1, u1, s1) =>
      match runConditions fuel cfg ids sess cs u1 s1 with
      | none => none
      | some (r2, u2, s2) => some (r1 ++ r2, u2, s2)

/-- The outer loop of `main` (`for session in sessions`). -/
def runSessions (fuel : Nat) (cfg : Config) (ids : Nat → String) :
    List String → Nat → RngSt → Option (List GridRecord × Nat × RngSt)
  | [], u, s => some ([], u, s)
  | se :: ses, u, s =>
    match runConditions fuel cfg ids se cfg.studyConditions u s with
    | none => none
    | some (r1, u1, s1) =>
      match runSessions fuel cfg ids ses u1 s1 with
      | none => none
      | some (r2, u2, s2) => some (r1 ++ r2, u2, s2)

/-- The batch of `main`: all records, in nested iteration order. -/
def runBatch (fuel : Nat) (cfg : Config) (ids : Nat → String)
    (s : RngSt) : Option (List GridRecord) :=
  match runSessions fuel cfg ids cfg.studySessions 0 s with
  | none => none
  | some (r, _, _) => some r

/-- A raw `config.json`: each required key may be present or missing. -/
structure RawConfig where
  gridWidth : Option Nat
  gridHeight : Option Nat
  gridMinValue : Option Int
  gridMaxValue : Option Int
  gridTargetNumber : Option Int
  gridTargetNumberInclusionProbability : Option ℚ
  gridNumberOfStimuli : Option Nat
  studyConditions : Option (List String)
  studyNumberOfGridsPerCondition : Option Nat
  studySessions : Option (List String)

/-- The config reads of `main` (source lines 107-119), in source order: a
missing key aborts the run before any generation (Python `KeyError`). -/
def parseConfig (r : RawConfig) : Option Config :=
  r.gridWidth.bind fun w =>
  r.gridHeight.bind fun h =>
  r.gridMinValue.bind fun mn =>
  r.gridMaxValue.bind fun mx =>
  r.gridTargetNumber.bind fun t =>
  r.gridTargetNumberInclusionProbability.bind fun pr =>
  r.gridNumberOfStimuli.bind fun n =>
  r.studyConditions.bind fun cs =>
  r.studyNumberOfGridsPerCondition.bind fun npc =>
  r.studySessions.map fun ss =>
  ⟨w, h, mn, mx, t, pr, n, cs, npc, ss⟩

/-- The whole program `main`: read every config field, run the batch, and
only on full success produce the one output document (`grids.json` is
opened and written only after the loops complete). -/
def program (fuel : Nat) (raw : RawConfig) (ids : Nat → String)
    (s : RngSt) : Option (List GridRecord) :=
  (parseConfig raw).bind fun cfg => runBatch fuel cfg ids s

/-- Ordering projection of a record: (session, condition, index). -/
def projSCI (r : GridRecord) : String × String × Nat :=
  (r.session, r.condition, r.gridIndexInCondition)

/-- The session-major, condition-second, index-minor iteration order the
spec promises (stated from the spec's words, to be compared with
`runBatch`). -/
def expectedOrder (cfg : Config) : List (String × String × Nat) :=
  (cfg.studySessions.map fun se =>
    ((cfg.studyConditions.map fun c =>
      (List.range cfg.studyNumberOfGridsPerCondition).map fun i =>
        (se, c, i)).flatten)).flatten

/-- A record with its identifier blanked: all output fields except the
randomly generated `id`. -/
def stripId (r : GridRecord) : GridRecord :=
  ⟨"", r.version, r.session, r.condition, r.targetNumber,
    r.doesIncludeTargetNumber, r.width, r.height, r.minValue, r.maxValue,
    r.targetNumberInclusionProbability, r.numberOfStimuli,
    r.gridIndexInCondition, r.numberOfGridsPerCondition, r.values⟩

/-- Concrete tiny configuration used by witnesses. -/
def cfgW : Config := ⟨1, 1, 1, 2, 5, 1, 1, ["c"], 1, ["s"]⟩

/-- Concrete identifier tape used by witnesses. -/
def ids0 : Nat → String := fun _ => "id"

/-- A raw configuration whose `gridWidth` key is missing. -/
def rawW : RawConfig := ⟨none, some 1, some 1, some 2, some 5, some 1,
  some 1, some ["c"], some 1, some ["s"]⟩

theorem randInt_range (a b : Int) (s : RngSt) (h : a ≤ b) :
    a ≤ (randInt a b s).1 ∧ (randInt a b s).1 ≤ b := by
  unfold randInt
  have hk : 0 < (b - a + 1).toNat := by omega
  have hm : s 0 % (b - a + 1).toNat < (b - a + 1).toNat := Nat.mod_lt _ hk
  simp only [Int.ofNat_eq_coe]
  omega

theorem availCount_pos_le (minV maxV : Int) (excl : List Int)
    (h : 0 < availCount minV maxV excl) : minV ≤ maxV := by
  by_contra hlt
  have hz : (maxV - minV + 1).toNat = 0 := by omega
  have : intRange minV maxV = [] := by
    unfold intRange
    rw [hz]
    rfl
  unfold availCount at h
  rw [this] at h
  simp at h

theorem getD_cons_eraseIdx_perm (l : List Int) (j : Nat) (hj : j < l.length) :
    (l.getD j 0 :: l.eraseIdx j).Perm l := by
  have h1 : l.getD j 0 = l[j] := by
    rw [List.getD_eq_getElem?_getD, List.getElem?_eq_getElem hj]
    rfl
  rw [List.eraseIdx_eq_take_drop_succ, h1]
  have h3 : l.take j ++ l[j] :: l.drop (j + 1) = l := by
    rw [List.getElem_cons_drop]
    exact List.take_append_drop j l
  exact List.perm_middle.symm.trans (by rw [h3])

theorem shuffleGo_perm :
    ∀ (fuel : Nat) (l : List Int) (s : RngSt), l.length ≤ fuel →
      ((shuffleGo fuel l s).1).Perm l := by
  intro fuel
  induction fuel with
  | zero =>
    intro l s hl
    have : l = [] := List.length_eq_zero.mp (Nat.le_zero.mp hl)
    subst this
    simp [shuffleGo]
  | succ fuel ih =>
    intro l s hl
    match l with
    | [] => simp [shuffleGo]
    | a :: t =>
      simp only [shuffleGo]
      have hjlt : s 0 % (a :: t).length < (a :: t).length :=
        Nat.mod_lt _ (by simp)
      have hlen : ((a :: t).eraseIdx (s 0 % (a :: t).length)).length ≤ fuel := by
        rw [List.length_eraseIdx_of_lt hjlt]
        simp only [List.length_cons] at hl ⊢
        omega
      exact ((ih _ (adv s) hlen).cons _).trans
        (getD_cons_eraseIdx_perm _ _ hjlt)

theorem shuffleList_perm (l : List Int) (s : RngSt) :
    ((shuffleList l s).1).Perm l :=
  shuffleGo_perm l.length l s le_rfl

theorem sampleLoop_spec (n : Nat) (minV maxV : Int) (excl : List Int)
    (hle : minV ≤ maxV) :
    ∀ (fuel : Nat) (acc : List Int) (s : RngSt) (l : List Int) (s1 : RngSt),
      acc.length ≤ n → acc.Nodup →
      (∀ v ∈ acc, (minV ≤ v ∧ v ≤ maxV) ∧ v ∉ excl) →
      sampleLoop n minV maxV excl fuel acc s = some (l, s1) →
      l.length = n ∧ l.Nodup ∧ ∀ v ∈ l, (minV ≤ v ∧ v ≤ maxV) ∧ v ∉ excl := by
  intro fuel
  induction fuel with
  | zero =>
    intro acc s l s1 hlen hnd hall hres
    simp only [sampleLoop] at hres
    split at hres
    · exact absurd hres (by simp)
    · rename_i hge
      obtain ⟨h1, h2⟩ := Prod.mk.injEq .. ▸ Option.some.inj hres
      subst h1
      exact ⟨by omega, hnd, hall⟩
  | succ fuel ih =>
    intro acc s l s1 hlen hnd hall hres
    simp only [sampleLoop] at hres
    split at hres
    · rename_i hlt
      split at hres
      · exact ih acc _ l s1 hlen hnd hall hres
      · rename_i hmem
        refine ih _ _ l s1 ?_ ?_ ?_ hres
        · unfold insertValue
          split
          · omega
          · simp only [List.length_cons]
            omega
        · unfold insertValue
          split
          · exact hnd
          · exact List.nodup_cons.mpr ⟨by assumption, hnd⟩
        · intro v hv
          unfold insertValue at hv
          split at hv
          · exact hall v hv
          · rcases List.mem_cons.mp hv with h | h
            · subst h
              exact ⟨randInt_range minV maxV s hle, hmem⟩
            · exact hall v h
    · rename_i hge
      obtain ⟨h1, h2⟩ := Prod.mk.injEq .. ▸ Option.some.inj hres
      subst h1
      exact ⟨by omega, hnd, hall⟩

theorem get_unique_random_values_spec (fuel n : Nat) (minV maxV : Int)
    (excl : List Int) (s : RngSt) (l : List Int) (s1 : RngSt)
    (hfeas : n ≤ availCount minV maxV excl)
    (h : get_unique_random_values fuel n minV maxV excl s = some (l, s1)) :
    l.length = n ∧ l.Nodup ∧ ∀ v ∈ l, (minV ≤ v ∧ v ≤ maxV) ∧ v ∉ excl := by
  unfold get_unique_random_values at h
  cases hsl : sampleLoop n minV maxV excl fuel [] s with
  | none => rw [hsl] at h; exact absurd h (by simp)
  | some r =>
    obtain ⟨l0, s0⟩ := r
    rw [hsl] at h
    simp only [Option.map_some'] at h
    have hl : l = (shuffleList l0 s0).1 := by
      rw [Option.some.inj h]
    rcases Nat.eq_zero_or_pos n with hn | hn
    · subst hn
      have hr : l0 = [] ∧ s = s0 := by
        cases fuel <;>
          simpa [sampleLoop] using hsl
      have hl0 : l = [] := by
        rw [hl, hr.1]
        rfl
      subst hl0
      simp
    · have hle : minV ≤ maxV :=
        availCount_pos_le minV maxV excl (Nat.lt_of_lt_of_le hn hfeas)
      have hspec := sampleLoop_spec n minV maxV excl hle fuel [] s l0 s0
        (by simp) (by simp) (by simp) hsl
      have hperm : l.Perm l0 := hl ▸ shuffleList_perm l0 s0
      refine ⟨hperm.length_eq.trans hspec.1, hperm.symm.nodup hspec.2.1, ?_⟩
      intro v hv
      exact hspec.2.2 v (hperm.mem_iff.mp hv)

/-- C10: whenever `get_unique_random_values` returns (given that at least
`n` distinct integers of `[min_value, max_value]` avoid the exclusion
list), the returned list has length exactly `n`, is pairwise distinct, and
every element lies in `[min_value, max_value]` and avoids
`numbers_to_exclude`. -/
theorem claim_C10 (fuel n : Nat) (minV maxV : Int) (excl : List Int)
    (s : RngSt) (l : List Int)
    (hfeas : n ≤ availCount minV maxV excl)
    (h : sampleValues fuel n minV maxV excl s = some l) :
    l.length = n ∧ l.Nodup ∧ ∀ v ∈ l, (minV ≤ v ∧ v ≤ maxV) ∧ v ∉ excl := by
  unfold sampleValues at h
  cases hg : get_unique_random_values fuel n minV maxV excl s with
  | none => rw [hg] at h; exact absurd h (by simp)
  | some r =>
    obtain ⟨l0, s0⟩ := r
    rw [hg] at h
    simp only [Option.map_some', Option.some.injEq] at h
    subst h
    exact get_unique_random_values_spec fuel n minV maxV excl s l0 s0 hfeas hg

theorem gridVals_cons (c : Col) (g : Grid) :
    gridVals (c :: g) = colVals c ++ gridVals g := by
  unfold gridVals colVals
  rw [List.flatten_cons, List.filterMap_append]

theorem gridDims_get_grid (w h : Nat) : gridDims w h (get_grid w h) := by
  unfold gridDims get_grid
  refine ⟨List.length_replicate .., ?_⟩
  intro c hc
  rw [List.eq_of_mem_replicate hc]
  exact List.length_replicate ..

theorem colVals_replicate_none (h : Nat) :
    colVals (List.replicate h (none : Option Int)) = [] := by
  induction h with
  | zero => rfl
  | succ h ih =>
    rw [List.replicate_succ]
    simp only [colVals, List.filterMap_cons] at ih ⊢
    exact ih

theorem gridVals_get_grid (w h : Nat) : gridVals (get_grid w h) = [] := by
  induction w with
  | zero => rfl
  | succ w ih =>
    unfold get_grid at *
    rw [List.replicate_succ, gridVals_cons, colVals_replicate_none, ih]
    rfl

theorem getCell_eq_some (g : Grid) (x y : Nat) (u : Int)
    (h : getCell g x y = some u) :
    ∃ c, g.get? x = some c ∧ c.get? y = some (some u) := by
  unfold getCell at h
  cases hx : g.get? x with
  | none => rw [hx] at h; exact absurd h (by simp [Option.bind])
  | some c =>
    rw [hx] at h
    simp only [Option.some_bind] at h
    cases hy : c.get? y with
    | none => rw [hy] at h; exact absurd h (by simp [Option.bind])
    | some a =>
      rw [hy] at h
      cases a with
      | none => exact absurd h (by simp)
      | some u2 =>
        have : u2 = u := by simpa [Option.join] using h
        exact ⟨c, rfl, by rw [hy, this]⟩

theorem getCell_mem (g : Grid) (x y : Nat) (u : Int)
    (h : getCell g x y = some u) : u ∈ gridVals g := by
  obtain ⟨c, hx, hy⟩ := getCell_eq_some g x y u h
  unfold gridVals
  rw [List.mem_filterMap]
  refine ⟨some u, ?_, rfl⟩
  exact List.mem_flatten_of_mem (List.get?_mem hx) (List.get?_mem hy)

theorem colVals_set_none (c : Col) (y : Nat) (v : Int)
    (h : c.get? y = some none) :
    (colVals (c.set y (some v))).Perm (v :: colVals c) := by
  induction c generalizing y with
  | nil => exact absurd h (by simp)
  | cons a t ih =>
    cases y with
    | zero =>
      obtain rfl : a = none := by simpa using h
      simp [colVals]
    | succ y =>
      have ht : t.get? y = some none := by simpa using h
      cases a with
      | none => simpa [colVals] using ih y ht
      | some u =>
        have : colVals ((some u : Option Int) :: t.set y (some v)) =
            u :: colVals (t.set y (some v)) := by simp [colVals]
        rw [List.set_cons_succ, this]
        refine ((ih y ht).cons u).trans ?_
        have : colVals ((some u : Option Int) :: t) = u :: colVals t := by
          simp [colVals]
        rw [this]
        exact List.Perm.swap v u (colVals t)

theorem colVals_set_some (c : Col) (y : Nat) (u t : Int)
    (h : c.get? y = some (some u)) :
    (u :: colVals (c.set y (some t))).Perm (t :: colVals c) := by
  induction c generalizing y with
  | nil => exact absurd h (by simp)
  | cons a tl ih =>
    cases y with
    | zero =>
      obtain rfl : a = some u := by simpa using h
      simp only [List.set_cons_zero]
      have h1 : colVals ((some t : Option Int) :: tl) = t :: colVals tl := by
        simp [colVals]
      have h2 : colVals ((some u : Option Int) :: tl) = u :: colVals tl := by
        simp [colVals]
      rw [h1, h2]
      exact List.Perm.swap t u (colVals tl)
    | succ y =>
      have htl : tl.get? y = some (some u) := by simpa using h
      rw [List.set_cons_succ]
      cases a with
      | none =>
        have h1 : colVals ((none : Option Int) :: tl.set y (some t)) =
            colVals (tl.set y (some t)) := by simp [colVals]
        have h2 : colVals ((none : Option Int) :: tl) = colVals tl := by
          simp [colVals]
        rw [h1, h2]
        exact ih y htl
      | some w =>
        have h1 : colVals ((some w : Option Int) :: tl.set y (some t)) =
            w :: colVals (tl.set y (some t)) := by simp [colVals]
        have h2 : colVals ((some w : Option Int) :: tl) = w :: colVals tl := by
          simp [colVals]
        rw [h1, h2]
        refine (List.Perm.swap w u _).trans ?_
        refine ((ih y htl).cons w).trans ?_
        exact List.Perm.swap t w (colVals tl)

theorem gridVals_set_swap (g : Grid) (x : Nat) (c c2 : Col)
    (hx : g.get? x = some c) :
    (gridVals (g.set x c2) ++ colVals c).Perm (colVals c2 ++ gridVals g) := by
  induction g generalizing x with
  | nil => exact absurd hx (by simp)
  | cons c0 tl ih =>
    cases x with
    | zero =>
      obtain rfl : c0 = c := by simpa using hx
      rw [List.set_cons_zero, gridVals_cons, gridVals_cons, List.append_assoc]
      exact List.Perm.append_left (colVals c2) List.perm_append_comm
    | succ x =>
      have htl : tl.get? x = some c := by simpa using hx
      rw [List.set_cons_succ, gridVals_cons, gridVals_cons, List.append_assoc]
      refine (List.Perm.append_left (colVals c0) (ih x htl)).trans ?_
      exact List.perm_append_comm_assoc (colVals c0) (colVals c2) (gridVals tl)

theorem perm_append_cancel_right (l1 l2 t : List Int)
    (h : (l1 ++ t).Perm (l2 ++ t)) : l1.Perm l2 :=
  (List.perm_append_right_iff t).mp h

theorem setCell_eq_set (g : Grid) (x y : Nat) (v : Option Int) (c : Col)
    (hx : g.get? x = some c) :
    setCell g x y v = g.set x (c.set y v) := by
  unfold setCell
  have : g.getD x [] = c := by
    rw [List.getD_eq_getElem?_getD, ← List.get?_eq_getElem?, hx]
    rfl
  rw [this]

theorem gridVals_setCell_none (w h : Nat) (g : Grid) (x y : Nat) (v : Int)
    (hd : gridDims w h g) (hx : x < w) (hy : y < h)
    (hcell : getCell g x y = none) :
    (gridVals (setCell g x y (some v))).Perm (v :: gridVals g) := by
  have hxl : x < g.length := hd.1 ▸ hx
  obtain ⟨c, hc⟩ : ∃ c, g.get? x = some c := by
    rw [List.get?_eq_getElem?, List.getElem?_eq_getElem hxl]
    exact ⟨g[x], rfl⟩
  have hcl : c.length = h := hd.2 c (List.get?_mem hc)
  have hcy : c.get? y = some none := by
    have hyl : y < c.length := hcl ▸ hy
    unfold getCell at hcell
    rw [hc] at hcell
    simp only [Option.some_bind] at hcell
    cases hcy2 : c.get? y with
    | none =>
      rw [List.get?_eq_getElem?] at hcy2
      exact absurd hcy2 (by rw [List.getElem?_eq_getElem hyl]; simp)
    | some a =>
      rw [hcy2] at hcell
      cases a with
      | none => rfl
      | some u => exact absurd hcell (by simp)
  rw [setCell_eq_set g x y (some v) c hc]
  have hswap := gridVals_set_swap g x c (c.set y (some v)) hc
  have hcv := colVals_set_none c y v hcy
  refine perm_append_cancel_right _ _ (colVals c) (hswap.trans ?_)
  refine (hcv.append_right (gridVals g)).trans ?_
  refine (List.perm_append_comm.cons v).trans ?_
  rfl

theorem gridVals_setCell_some (g : Grid) (x y : Nat) (u t : Int)
    (hcell : getCell g x y = some u) :
    (u :: gridVals (setCell g x y (some t))).Perm (t :: gridVals g) := by
  obtain ⟨c, hc, hcy⟩ := getCell_eq_some g x y u hcell
  rw [setCell_eq_set g x y (some t) c hc]
  have hswap := gridVals_set_swap g x c (c.set y (some t)) hc
  have hcv := colVals_set_some c y u t hcy
  refine perm_append_cancel_right _ _ (colVals c) ?_
  have step1 : ((u :: gridVals (g.set x (c.set y (some t)))) ++ colVals c).Perm
      ((u :: colVals (c.set y (some t))) ++ gridVals g) := hswap.cons u
  refine step1.trans ?_
  refine (hcv.append_right (gridVals g)).trans ?_
  exact (List.perm_append_comm.cons t)

theorem setCell_dims (w h : Nat) (g : Grid) (x y : Nat) (v : Option Int)
    (hd : gridDims w h g) : gridDims w h (setCell g x y v) := by
  rcases Nat.lt_or_ge x g.length with hxl | hxl
  · obtain ⟨c, hc⟩ : ∃ c, g.get? x = some c := by
      rw [List.get?_eq_getElem?, List.getElem?_eq_getElem hxl]
      exact ⟨g[x], rfl⟩
    rw [setCell_eq_set g x y v c hc]
    constructor
    · rw [List.length_set]
      exact hd.1
    · intro c3 hc3
      rcases List.mem_or_eq_of_mem_set hc3 with hmem | heq
      · exact hd.2 c3 hmem
      · rw [heq, List.length_set]
        exact hd.2 c (List.get?_mem hc)
  · unfold setCell
    rw [List.set_eq_of_length_le hxl]
    exact hd

theorem claim_C10_witness :
    (1 ≤ availCount 1 3 [(2 : Int)]) ∧
    ([(1 : Int)].length = 1 ∧ [(1 : Int)].Nodup ∧
      ∀ v ∈ [(1 : Int)], ((1 : Int) ≤ v ∧ v ≤ 3) ∧ v ∉ [(2 : Int)]) :=
  ⟨by decide, claim_C10 6 1 1 3 [2] sZero [1] (by decide) (by decide)⟩

theorem findEmpty_spec (w h : Nat) (g : Grid) (hw : 0 < w) (hh : 0 < h) :
    ∀ (fuel : Nat) (s : RngSt) (x y : Nat) (s1 : RngSt),
      findEmpty w h g fuel s = some (x, y, s1) →
      x < w ∧ y < h ∧ getCell g x y = none := by
  intro fuel
  induction fuel with
  | zero => intro s x y s1 hres; exact absurd hres (by simp [findEmpty])
  | succ fuel ih =>
    intro s x y s1 hres
    simp only [findEmpty] at hres
    split at hres
    · rename_i heq
      obtain ⟨h1, h2, h3⟩ : s 0 % w = x ∧ s 1 % h = y ∧ adv (adv s) = s1 := by
        simpa using hres
      subst h1
      subst h2
      exact ⟨Nat.mod_lt _ hw, Nat.mod_lt _ hh, heq⟩
    · exact ih _ x y s1 hres

theorem findOccupied_spec (w h : Nat) (g : Grid) :
    ∀ (fuel : Nat) (s : RngSt) (x y : Nat) (s1 : RngSt),
      findOccupied w h g fuel s = some (x, y, s1) →
      ∃ u, getCell g x y = some u := by
  intro fuel
  induction fuel with
  | zero => intro s x y s1 hres; exact absurd hres (by simp [findOccupied])
  | succ fuel ih =>
    intro s x y s1 hres
    simp only [findOccupied] at hres
    split at hres
    · exact ih _ x y s1 hres
    · rename_i u heq
      obtain ⟨h1, h2, h3⟩ : s 0 % w = x ∧ s 1 % h = y ∧ adv (adv s) = s1 := by
        simpa using hres
      subst h1
      subst h2
      exact ⟨u, heq⟩

theorem placeValues_spec (fuel w h : Nat) (hw : 0 < w) (hh : 0 < h) :
    ∀ (vals : List Int) (g : Grid) (s : RngSt) (g1 : Grid) (s1 : RngSt),
      gridDims w h g →
      placeValues fuel w h vals g s = some (g1, s1) →
      gridDims w h g1 ∧ (gridVals g1).Perm (vals ++ gridVals g) := by
  intro vals
  induction vals with
  | nil =>
    intro g s g1 s1 hd hres
    obtain ⟨h1, h2⟩ : g = g1 ∧ s = s1 := by simpa [placeValues] using hres
    subst h1
    exact ⟨hd, by simp⟩
  | cons v vs ih =>
    intro g s g1 s1 hd hres
    simp only [placeValues] at hres
    split at hres
    · exact absurd hres (by simp)
    · rename_i x y s2 heq
      obtain ⟨hx, hy, hcell⟩ := findEmpty_spec w h g hw hh fuel s x y s2 heq
      have hd2 := setCell_dims w h g x y (some v) hd
      obtain ⟨hd1, hperm⟩ := ih (setCell g x y (some v)) s2 g1 s1 hd2 hres
      refine ⟨hd1, ?_⟩
      refine hperm.trans ?_
      have h2 := gridVals_setCell_none w h g x y v hd hx hy hcell
      refine (List.Perm.append_left vs h2).trans ?_
      exact List.perm_middle

theorem genGrid_some (fuel w h n : Nat) (minV maxV target : Int) (p : ℚ)
    (s : RngSt) (g : Grid) (b : Bool)
    (hres : genGrid fuel w h n minV maxV target p s = some (g, b)) :
    ∃ s1, generate_random_grid fuel w h n minV maxV target p s =
      some (g, b, s1) := by
  unfold genGrid at hres
  cases hg : generate_random_grid fuel w h n minV maxV target p s with
  | none => rw [hg] at hres; exact absurd hres (by simp)
  | some r =>
    obtain ⟨g0, b0, st⟩ := r
    rw [hg] at hres
    simp only [Option.map_some', Option.some.injEq, Prod.mk.injEq] at hres
    obtain ⟨h1, h2⟩ := hres
    subst h1
    subst h2
    exact ⟨st, rfl⟩

theorem generate_spec (fuel w h n : Nat) (minV maxV target : Int) (p : ℚ)
    (s : RngSt) (g : Grid) (b : Bool) (s9 : RngSt)
    (hfeas : n ≤ availCount minV maxV [target])
    (hwh : n ≤ w * h)
    (hres : generate_random_grid fuel w h n minV maxV target p s =
      some (g, b, s9)) :
    (gridVals g).length = n ∧ (gridVals g).Nodup ∧
      (b = true → (gridVals g).count target = 1) ∧
      (b = false → (gridVals g).count target = 0) ∧
      (∀ v ∈ gridVals g, (minV ≤ v ∧ v ≤ maxV) ∨ v = target) := by
  unfold generate_random_grid at hres
  cases hu : get_unique_random_values fuel n minV maxV [target] s with
  | none => rw [hu] at hres; exact absurd hres (by simp)
  | some r =>
    obtain ⟨vals, s2⟩ := r
    rw [hu] at hres
    dsimp only at hres
    have hvals := get_unique_random_values_spec fuel n minV maxV [target]
      s vals s2 hfeas hu
    cases hp : placeValues fuel w h vals (get_grid w h) s2 with
    | none => rw [hp] at hres; exact absurd hres (by simp)
    | some r2 =>
      obtain ⟨g2, s3⟩ := r2
      rw [hp] at hres
      dsimp only at hres
      have hg2 : gridDims w h g2 ∧ (gridVals g2).Perm vals := by
        rcases Nat.eq_zero_or_pos n with hn0 | hnpos
        · have hvnil : vals = [] := by
            refine List.length_eq_zero.mp ?_
            rw [hvals.1, hn0]
          subst hvnil
          obtain ⟨h1, h2⟩ : get_grid w h = g2 ∧ s2 = s3 := by
            simpa [placeValues] using hp
          subst h1
          exact ⟨gridDims_get_grid w h, by rw [gridVals_get_grid]⟩
        · have hwh0 : 0 < w * h := Nat.lt_of_lt_of_le hnpos hwh
          have hwpos : 0 < w := by
            rcases Nat.eq_zero_or_pos w with rfl | hw2
            · simp at hwh0
            · exact hw2
          have hhpos : 0 < h := by
            rcases Nat.eq_zero_or_pos h with rfl | hh2
            · simp at hwh0
            · exact hh2
          have := placeValues_spec fuel w h hwpos hhpos vals (get_grid w h)
            s2 g2 s3 (gridDims_get_grid w h) hp
          refine ⟨this.1, ?_⟩
          have h2 := this.2
          rw [gridVals_get_grid, List.append_nil] at h2
          exact h2
      have hlen2 : (gridVals g2).length = n := hg2.2.length_eq.trans hvals.1
      have hnd2 : (gridVals g2).Nodup := hg2.2.symm.nodup hvals.2.1
      have hnt2 : target ∉ gridVals g2 := by
        intro hmem
        exact (hvals.2.2 target (hg2.2.mem_iff.mp hmem)).2 (by simp)
      have hrange2 : ∀ v ∈ gridVals g2, minV ≤ v ∧ v ≤ maxV := fun v hv =>
        (hvals.2.2 v (hg2.2.mem_iff.mp hv)).1
      split at hres
      · -- Bernoulli success: target substitution runs
        split at hres
        · exact absurd hres (by simp)
        · rename_i x y s4 heq
          obtain ⟨h1, h2, h3⟩ : setCell g2 x y (some target) = g ∧
              true = b ∧ s4 = s9 := by simpa using hres
          subst h1
          subst h2
          obtain ⟨u, hu2⟩ := findOccupied_spec w h g2 fuel _ x y s4 heq
          have humem := getCell_mem g2 x y u hu2
          have hkey := gridVals_setCell_some g2 x y u target hu2
          have hune : u ≠ target := fun he => hnt2 (he ▸ humem)
          have hnodup : (target :: gridVals g2).Nodup :=
            List.nodup_cons.mpr ⟨hnt2, hnd2⟩
          refine ⟨?_, ?_, ?_, ?_, ?_⟩
          · have hl := hkey.length_eq
            simp only [List.length_cons] at hl
            omega
          · have := hkey.symm.nodup hnodup
            exact (List.nodup_cons.mp this).2
          · intro _
            have hc := hkey.count_eq target
            rw [List.count_cons_of_ne (Ne.symm hune),
              List.count_cons_self] at hc
            rw [hc, List.count_eq_zero.mpr hnt2]
          · intro hbf
            exact absurd hbf (by simp)
          · intro v hv
            have hv2 : v ∈ target :: gridVals g2 :=
              hkey.mem_iff.mp (List.mem_cons_of_mem u hv)
            rcases List.mem_cons.mp hv2 with rfl | hvg
            · exact Or.inr rfl
            · exact Or.inl (hrange2 v hvg)
      · -- Bernoulli failure: grid returned as placed
        obtain ⟨h1, h2, h3⟩ : g2 = g ∧ false = b ∧
            (bernoulliTrial p s3).2 = s9 := by simpa using hres
        subst h1
        subst h2
        refine ⟨hlen2, hnd2, ?_, ?_, ?_⟩
        · intro hbt
          exact absurd hbt (by simp)
        · intro _
          exact List.count_eq_zero.mpr hnt2
        · intro v hv
          exact Or.inl (hrange2 v hv)

/-- C1: under the feasibility preconditions (`n ≤ w*h` and at least `n`
distinct integers of `[minValue, maxValue]` other than the target), every
grid returned by `generate_random_grid` has exactly `numberOfStimuli`
non-empty cells and pairwise-distinct non-empty values — also when the
target was substituted in. -/
theorem claim_C1 (fuel w h n : Nat) (minV maxV target : Int) (p : ℚ)
    (s : RngSt) (g : Grid) (b : Bool)
    (hfeas : n ≤ availCount minV maxV [target]) (hwh : n ≤ w * h)
    (hres : genGrid fuel w h n minV maxV target p s = some (g, b)) :
    (gridVals g).length = n ∧ (gridVals g).Nodup := by
  obtain ⟨s1, hg⟩ := genGrid_some fuel w h n minV maxV target p s g b hres
  have hspec := generate_spec fuel w h n minV maxV target p s g b s1
    hfeas hwh hg
  exact ⟨hspec.1, hspec.2.1⟩

theorem claim_C1_witness :
    (1 ≤ availCount 1 3 [(2 : Int)] ∧ 1 ≤ 2 * 1) ∧
    ((gridVals [[some 1], [none]]).length = 1 ∧
      (gridVals [[some 1], [none]]).Nodup) :=
  ⟨⟨by decide, by decide⟩,
    claim_C1 6 2 1 1 1 3 2 0 sZero [[some 1], [none]] false
      (by decide) (by decide) (by decide)⟩

/-- C2: under the feasibility preconditions, when `generate_random_grid`
returns, a true target-inclusion flag means exactly one cell holds the
target and a false flag means no cell holds it. -/
theorem claim_C2 (fuel w h n : Nat) (minV maxV target : Int) (p : ℚ)
    (s : RngSt) (g : Grid) (b : Bool)
    (hfeas : n ≤ availCount minV maxV [target]) (hwh : n ≤ w * h)
    (hres : genGrid fuel w h n minV maxV target p s = some (g, b)) :
    (b = true → (gridVals g).count target = 1) ∧
    (b = false → (gridVals g).count target = 0) := by
  obtain ⟨s1, hg⟩ := genGrid_some fuel w h n minV maxV target p s g b hres
  have hspec := generate_spec fuel w h n minV maxV target p s g b s1
    hfeas hwh hg
  exact ⟨hspec.2.2.1, hspec.2.2.2.1⟩

theorem claim_C2_witness :
    (1 ≤ availCount 1 2 [(5 : Int)] ∧ 1 ≤ 1 * 1) ∧
    ((true = true → (gridVals [[some 5]]).count 5 = 1) ∧
      (true = false → (gridVals [[some 5]]).count 5 = 0)) :=
  ⟨⟨by decide, by decide⟩,
    claim_C2 6 1 1 1 1 2 5 1 sZero [[some 5]] true
      (by decide) (by decide) (by decide)⟩

/-- C3 as written is false: when the target lies outside
`[minValue, maxValue]`, target substitution writes an out-of-range value.
Concrete run: width = height = 1, one stimulus, range `[1, 2]`, target 5,
inclusion probability 1 — the returned grid holds 5 ∉ `[1, 2]` although the
feasibility preconditions hold. -/
theorem claim_C3_counterexample :
    1 ≤ availCount 1 2 [(5 : Int)] ∧ 1 ≤ 1 * 1 ∧
    genGrid 6 1 1 1 1 2 5 1 sZero = some ([[some 5]], true) ∧
    (5 : Int) ∈ gridVals [[some (5 : Int)]] ∧
    ¬((1 : Int) ≤ 5 ∧ (5 : Int) ≤ 2) :=
  ⟨by decide, by decide, by decide, by decide, by decide⟩

/-- C3 amended: every non-empty cell value of a returned grid lies in
`[minValue, maxValue]` or equals the target number (the possible
out-of-range value of the one substituted cell). -/
theorem claim_C3 (fuel w h n : Nat) (minV maxV target : Int) (p : ℚ)
    (s : RngSt) (g : Grid) (b : Bool)
    (hfeas : n ≤ availCount minV maxV [target]) (hwh : n ≤ w * h)
    (hres : genGrid fuel w h n minV maxV target p s = some (g, b)) :
    ∀ v ∈ gridVals g, (minV ≤ v ∧ v ≤ maxV) ∨ v = target := by
  obtain ⟨s1, hg⟩ := genGrid_some fuel w h n minV maxV target p s g b hres
  have hspec := generate_spec fuel w h n minV maxV target p s g b s1
    hfeas hwh hg
  exact hspec.2.2.2.2

theorem claim_C3_witness :
    (1 ≤ availCount 1 2 [(5 : Int)] ∧ 1 ≤ 1 * 1) ∧
    (∀ v ∈ gridVals [[some 5]], ((1 : Int) ≤ v ∧ v ≤ 2) ∨ v = 5) :=
  ⟨⟨by decide, by decide⟩,
    claim_C3 7 1 1 1 1 2 5 1 sZero [[some 5]] true
      (by decide) (by decide) (by decide)⟩

theorem getCell_get_grid (w h x y : Nat) :
    getCell (get_grid w h) x y = none := by
  unfold getCell get_grid
  cases hx : (List.replicate w (List.replicate h (none : Option Int))).get? x with
  | none => rfl
  | some c =>
    have hc : c = List.replicate h none := List.eq_of_mem_replicate (List.get?_mem hx)
    subst hc
    simp only [Option.some_bind]
    cases hy : (List.replicate h (none : Option Int)).get? y with
    | none => rfl
    | some a =>
      have : a = none := List.eq_of_mem_replicate (List.get?_mem hy)
      rw [this]
      rfl

theorem findOccupied_get_grid (w h wg hg : Nat) :
    ∀ (fuel : Nat) (s : RngSt),
      findOccupied w h (get_grid wg hg) fuel s = none := by
  intro fuel
  induction fuel with
  | zero => intro s; rfl
  | succ fuel ih =>
    intro s
    simp only [findOccupied]
    rw [getCell_get_grid]
    exact ih (adv (adv s))

theorem bernoulliTrial_one (s : RngSt) : (bernoulliTrial 1 s).1 = true := by
  unfold bernoulliTrial
  simp only [Rat.num_ofNat, Rat.den_ofNat]
  rw [decide_eq_true_iff]
  have : (0 : Int) ≤ (s 0 : Int) := Int.ofNat_nonneg (s 0)
  omega

/-- C4 is refuted by the code: with `numberOfStimuli = 0` and inclusion
probability 1 (a certain Bernoulli success), the occupied-cell search of
the target-substitution step can never succeed on the fully empty grid, so
`generate_random_grid` never returns — the model yields `none` for every
fuel, for every tape and every grid shape, instead of no-opping to the
empty grid. -/
theorem claim_C4 (fuel w h : Nat) (minV maxV target : Int) (s : RngSt) :
    generate_random_grid fuel w h 0 minV maxV target 1 s = none := by
  have hu : get_unique_random_values fuel 0 minV maxV [target] s =
      some ([], s) := by
    unfold get_unique_random_values
    cases fuel <;> simp [sampleLoop, shuffleList, shuffleGo]
  unfold generate_random_grid
  rw [hu]
  dsimp only
  simp only [placeValues]
  rw [bernoulliTrial_one]
  simp only [if_true]
  rw [findOccupied_get_grid]

theorem randInt_one_one (s : RngSt) : (randInt 1 1 s).1 = (1 : Int) := by
  unfold randInt
  norm_num

theorem sampleLoop_all_excluded (fuel : Nat) (s : RngSt) :
    sampleLoop 1 1 1 [(1 : Int)] fuel [] s = none := by
  induction fuel generalizing s with
  | zero => simp [sampleLoop]
  | succ fuel ih =>
    simp only [sampleLoop]
    rw [if_pos (by simp)]
    rw [if_pos (by rw [randInt_one_one]; simp)]
    exact ih _

/-- C5 is refuted by the code: the program performs no feasibility check at
all.  With `minValue = maxValue = targetNumber = 1` and one stimulus there
is no admissible value, and `generate_random_grid` neither detects this nor
reports an error: its rejection-sampling loop simply never terminates (the
model yields `none` for every fuel). -/
theorem claim_C5 (fuel w h : Nat) (p : ℚ) (s : RngSt) :
    generate_random_grid fuel w h 1 1 1 1 p s = none := by
  unfold generate_random_grid get_unique_random_values
  rw [sampleLoop_all_excluded fuel s]
  rfl

theorem runIndices_proj (fuel : Nat) (cfg : Config) (ids : Nat → String)
    (sess cond : String) :
    ∀ (idxs : List Nat) (u : Nat) (s : RngSt) (recs : List GridRecord)
      (u1 : Nat) (s1 : RngSt),
      runIndices fuel cfg ids sess cond idxs u s = some (recs, u1, s1) →
      recs.map projSCI = idxs.map fun i => (sess, cond, i) := by
  intro idxs
  induction idxs with
  | nil =>
    intro u s recs u1 s1 h
    obtain ⟨h1, h2, h3⟩ : ([] : List GridRecord) = recs ∧ u = u1 ∧ s = s1 := by
      simpa [runIndices] using h
    rw [← h1]
    rfl
  | cons i rest ih =>
    intro u s recs u1 s1 h
    simp only [runIndices] at h
    split at h
    · exact absurd h (by simp)
    · rename_i g b s2 hgen
      split at h
      · exact absurd h (by simp)
      · rename_i recs2 u2 s3 hrec
        obtain ⟨h1, h2, h3⟩ : mkRecord cfg sess cond i (ids u) g b :: recs2 =
            recs ∧ u2 = u1 ∧ s3 = s1 := by simpa using h
        rw [← h1]
        simp only [List.map_cons]
        rw [ih (u + 1) s2 recs2 u2 s3 hrec]
        rfl

theorem runConditions_proj (fuel : Nat) (cfg : Config) (ids : Nat → String)
    (sess : String) :
    ∀ (cs : List String) (u : Nat) (s : RngSt) (recs : List GridRecord)
      (u1 : Nat) (s1 : RngSt),
      runConditions fuel cfg ids sess cs u s = some (recs, u1, s1) →
      recs.map projSCI = ((cs.map fun c =>
        (List.range cfg.studyNumberOfGridsPerCondition).map fun i =>
          (sess, c, i))).flatten := by
  intro cs
  induction cs with
  | nil =>
    intro u s recs u1 s1 h
    obtain ⟨h1, h2, h3⟩ : ([] : List GridRecord) = recs ∧ u = u1 ∧ s = s1 := by
      simpa [runConditions] using h
    rw [← h1]
    rfl
  | cons c cs2 ih =>
    intro u s recs u1 s1 h
    simp only [runConditions] at h
    split at h
    · exact absurd h (by simp)
    · rename_i r1 u2 s2 hidx
      split at h
      · exact absurd h (by simp)
      · rename_i r2 u3 s3 hrec
        obtain ⟨h1, h2, h3⟩ : r1 ++ r2 = recs ∧ u3 = u1 ∧ s3 = s1 := by
          simpa using h
        rw [← h1]
        simp only [List.map_cons, List.flatten_cons, List.map_append]
        rw [runIndices_proj fuel cfg ids sess c _ u s r1 u2 s2 hidx,
          ih u2 s2 r2 u3 s3 hrec]

theorem runSessions_proj (fuel : Nat) (cfg : Config) (ids : Nat → String) :
    ∀ (ses : List String) (u : Nat) (s : RngSt) (recs : List GridRecord)
      (u1 : Nat) (s1 : RngSt),
      runSessions fuel cfg ids ses u s = some (recs, u1, s1) →
      recs.map projSCI = ((ses.map fun se =>
        ((cfg.studyConditions.map fun c =>
          (List.range cfg.studyNumberOfGridsPerCondition).map fun i =>
            (se, c, i))).flatten)).flatten := by
  intro ses
  induction ses with
  | nil =>
    intro u s recs u1 s1 h
    obtain ⟨h1, h2, h3⟩ : ([] : List GridRecord) = recs ∧ u = u1 ∧ s = s1 := by
      simpa [runSessions] using h
    rw [← h1]
    rfl
  | cons se ses2 ih =>
    intro u s recs u1 s1 h
    simp only [runSessions] at h
    split at h
    · exact absurd h (by simp)
    · rename_i r1 u2 s2 hcond
      split at h
      · exact absurd h (by simp)
      · rename_i r2 u3 s3 hrec
        obtain ⟨h1, h2, h3⟩ : r1 ++ r2 = recs ∧ u3 = u1 ∧ s3 = s1 := by
          simpa using h
        rw [← h1]
        simp only [List.map_cons, List.flatten_cons, List.map_append]
        rw [runConditions_proj fuel cfg ids se cfg.studyConditions
          u s r1 u2 s2 hcond, ih u2 s2 r2 u3 s3 hrec]

theorem runBatch_proj (fuel : Nat) (cfg : Config) (ids : Nat → String)
    (s : RngSt) (recs : List GridRecord)
    (hres : runBatch fuel cfg ids s = some recs) :
    recs.map projSCI = expectedOrder cfg := by
  unfold runBatch at hres
  split at hres
  · exact absurd hres (by simp)
  · rename_i r u1 s1 hses
    obtain rfl : r = recs := by simpa using hres
    exact runSessions_proj fuel cfg ids cfg.studySessions 0 s r u1 s1 hses

theorem expectedOrder_length (cfg : Config) :
    (expectedOrder cfg).length =
      cfg.studySessions.length * (cfg.studyConditions.length *
        cfg.studyNumberOfGridsPerCondition) := by
  unfold expectedOrder
  have hinner : ∀ se : String,
      (((cfg.studyConditions.map fun c =>
        (List.range cfg.studyNumberOfGridsPerCondition).map fun i =>
          (se, c, i))).flatten).length =
      cfg.studyConditions.length * cfg.studyNumberOfGridsPerCondition := by
    intro se
    induction cfg.studyConditions with
    | nil => simp
    | cons c cs ih =>
      simp only [List.map_cons, List.flatten_cons, List.length_append, ih,
        List.length_map, List.length_range]
      rw [List.length_cons]
      ring
  induction cfg.studySessions with
  | nil => simp
  | cons se ses ih =>
    simp only [List.map_cons, List.flatten_cons, List.length_append, ih,
      hinner se]
    rw [List.length_cons]
    ring

/-- C6: whenever the batch completes, the number of output records equals
`len(sessions) × len(conditions) × numberOfGridsPerCondition`. -/
theorem claim_C6 (fuel : Nat) (cfg : Config) (ids : Nat → String)
    (s : RngSt) (recs : List GridRecord)
    (hres : runBatch fuel cfg ids s = some recs) :
    recs.length = cfg.studySessions.length * cfg.studyConditions.length *
      cfg.studyNumberOfGridsPerCondition := by
  have hmap := runBatch_proj fuel cfg ids s recs hres
  have hlen := congrArg List.length hmap
  rw [List.length_map] at hlen
  rw [hlen, expectedOrder_length, Nat.mul_assoc]

theorem claim_C6_witness :
    ((runBatch 6 cfgW ids0 sZero).getD []).length =
      cfgW.studySessions.length * cfgW.studyConditions.length *
        cfgW.studyNumberOfGridsPerCondition :=
  claim_C6 6 cfgW ids0 sZero ((runBatch 6 cfgW ids0 sZero).getD [])
    (by decide)

/-- C7: the completed batch lists its records in session-major,
condition-second, index-minor order — position `k` carries exactly the
`k`-th triple of the nested iteration, and each record's
`gridIndexInCondition` equals its inner-loop index. -/
theorem claim_C7 (fuel : Nat) (cfg : Config) (ids : Nat → String)
    (s : RngSt) (recs : List GridRecord)
    (hres : runBatch fuel cfg ids s = some recs) :
    recs.map projSCI = expectedOrder cfg :=
  runBatch_proj fuel cfg ids s recs hres

theorem claim_C7_witness :
    ((runBatch 6 cfgW ids0 sZero).getD []).map projSCI =
      expectedOrder cfgW :=
  claim_C7 6 cfgW ids0 sZero ((runBatch 6 cfgW ids0 sZero).getD [])
    (by decide)

theorem runIndices_ids (fuel : Nat) (cfg : Config) (ids1 ids2 : Nat → String)
    (sess cond : String) :
    ∀ (idxs : List Nat) (u v : Nat) (s : RngSt),
      Option.map (fun t => (t.1.map stripId, t.2.2))
        (runIndices fuel cfg ids1 sess cond idxs u s) =
      Option.map (fun t => (t.1.map stripId, t.2.2))
        (runIndices fuel cfg ids2 sess cond idxs v s) := by
  intro idxs
  induction idxs with
  | nil => intro u v s; rfl
  | cons i rest ih =>
    intro u v s
    simp only [runIndices]
    cases hgen : generate_random_grid fuel cfg.gridWidth cfg.gridHeight
        cfg.gridNumberOfStimuli cfg.gridMinValue cfg.gridMaxValue
        cfg.gridTargetNumber cfg.gridTargetNumberInclusionProbability s with
    | none => rfl
    | some r =>
      obtain ⟨g, b, s1⟩ := r
      dsimp only
      have hIH := ih (u + 1) (v + 1) s1
      cases h1 : runIndices fuel cfg ids1 sess cond rest (u + 1) s1 with
      | none =>
        cases h2 : runIndices fuel cfg ids2 sess cond rest (v + 1) s1 with
        | none => rfl
        | some t2 => rw [h1, h2] at hIH; exact absurd hIH (by simp)
      | some t1 =>
        cases h2 : runIndices fuel cfg ids2 sess cond rest (v + 1) s1 with
        | none => rw [h1, h2] at hIH; exact absurd hIH (by simp)
        | some t2 =>
          rw [h1, h2] at hIH
          obtain ⟨r1, u1, s2⟩ := t1
          obtain ⟨r2, u2, s3⟩ := t2
          simp only [Option.map_some', Option.some.injEq, Prod.mk.injEq] at hIH
          simp only [Option.map_some', Option.some.injEq, Prod.mk.injEq,
            List.map_cons]
          refine ⟨?_, hIH.2⟩
          rw [hIH.1]
          rfl

theorem runConditions_ids (fuel : Nat) (cfg : Config)
    (ids1 ids2 : Nat → String) (sess : String) :
    ∀ (cs : List String) (u v : Nat) (s : RngSt),
      Option.map (fun t => (t.1.map stripId, t.2.2))
        (runConditions fuel cfg ids1 sess cs u s) =
      Option.map (fun t => (t.1.map stripId, t.2.2))
        (runConditions fuel cfg ids2 sess cs v s) := by
  intro cs
  induction cs with
  | nil => intro u v s; rfl
  | cons c cs2 ih =>
    intro u v s
    simp only [runConditions]
    have hidx := runIndices_ids fuel cfg ids1 ids2 sess c
      (List.range cfg.studyNumberOfGridsPerCondition) u v s
    cases h1 : runIndices fuel cfg ids1 sess c
        (List.range cfg.studyNumberOfGridsPerCondition) u s with
    | none =>
      cases h2 : runIndices fuel cfg ids2 sess c
          (List.range cfg.studyNumberOfGridsPerCondition) v s with
      | none => rfl
      | some t2 => rw [h1, h2] at hidx; exact absurd hidx (by simp)
    | some t1 =>
      cases h2 : runIndices fuel cfg ids2 sess c
          (List.range cfg.studyNumberOfGridsPerCondition) v s with
      | none => rw [h1, h2] at hidx; exact absurd hidx (by simp)
      | some t2 =>
        rw [h1, h2] at hidx
        obtain ⟨r1, u1, s1⟩ := t1
        obtain ⟨r2, u2, s2⟩ := t2
        simp only [Option.map_some', Option.some.injEq, Prod.mk.injEq] at hidx
        obtain ⟨hmap, hst⟩ := hidx
        subst hst
        dsimp only
        have hIH := ih u1 u2 s1
        cases h3 : runConditions fuel cfg ids1 sess cs2 u1 s1 with
        | none =>
          cases h4 : runConditions fuel cfg ids2 sess cs2 u2 s1 with
          | none => rfl
          | some t4 => rw [h3, h4] at hIH; exact absurd hIH (by simp)
        | some t3 =>
          cases h4 : runConditions fuel cfg ids2 sess cs2 u2 s1 with
          | none => rw [h3, h4] at hIH; exact absurd hIH (by simp)
          | some t4 =>
            rw [h3, h4] at hIH
            obtain ⟨r3, u3, s3⟩ := t3
            obtain ⟨r4, u4, s4⟩ := t4
            simp only [Option.map_some', Option.some.injEq,
              Prod.mk.injEq] at hIH
            simp only [Option.map_some', Option.some.injEq, Prod.mk.injEq,
              List.map_append]
            exact ⟨by rw [hmap, hIH.1], hIH.2⟩

theorem runSessions_ids (fuel : Nat) (cfg : Config)
    (ids1 ids2 : Nat → String) :
    ∀ (ses : List String) (u v : Nat) (s : RngSt),
      Option.map (fun t => (t.1.map stripId, t.2.2))
        (runSessions fuel cfg ids1 ses u s) =
      Option.map (fun t => (t.1.map stripId, t.2.2))
        (runSessions fuel cfg ids2 ses v s) := by
  intro ses
  induction ses with
  | nil => intro u v s; rfl
  | cons se ses2 ih =>
    intro u v s
    simp only [runSessions]
    have hcond := runConditions_ids fuel cfg ids1 ids2 se
      cfg.studyConditions u v s
    cases h1 : runConditions fuel cfg ids1 se cfg.studyConditions u s with
    | none =>
      cases h2 : runConditions fuel cfg ids2 se cfg.studyConditions v s with
      | none => rfl
      | some t2 => rw [h1, h2] at hcond; exact absurd hcond (by simp)
    | some t1 =>
      cases h2 : runConditions fuel cfg ids2 se cfg.studyConditions v s with
      | none => rw [h1, h2] at hcond; exact absurd hcond (by simp)
      | some t2 =>
        rw [h1, h2] at hcond
        obtain ⟨r1, u1, s1⟩ := t1
        obtain ⟨r2, u2, s2⟩ := t2
        simp only [Option.map_some', Option.some.injEq, Prod.mk.injEq] at hcond
        obtain ⟨hmap, hst⟩ := hcond
        subst hst
        dsimp only
        have hIH := ih u1 u2 s1
        cases h3 : runSessions fuel cfg ids1 ses2 u1 s1 with
        | none =>
          cases h4 : runSessions fuel cfg ids2 ses2 u2 s1 with
          | none => rfl
          | some t4 => rw [h3, h4] at hIH; exact absurd hIH (by simp)
        | some t3 =>
          cases h4 : runSessions fuel cfg ids2 ses2 u2 s1 with
          | none => rw [h3, h4] at hIH; exact absurd hIH (by simp)
          | some t4 =>
            rw [h3, h4] at hIH
            obtain ⟨r3, u3, s3⟩ := t3
            obtain ⟨r4, u4, s4⟩ := t4
            simp only [Option.map_some', Option.some.injEq,
              Prod.mk.injEq] at hIH
            simp only [Option.map_some', Option.some.injEq, Prod.mk.injEq,
              List.map_append]
            exact ⟨by rw [hmap, hIH.1], hIH.2⟩

/-- C8: determinism modulo identifiers — two runs with the same
configuration and the same seeded random tape produce the same batch
(success or failure alike), with every record field equal except the
independently drawn `id`. -/
theorem claim_C8 (fuel : Nat) (cfg : Config) (ids1 ids2 : Nat → String)
    (s : RngSt) :
    Option.map (List.map stripId) (runBatch fuel cfg ids1 s) =
    Option.map (List.map stripId) (runBatch fuel cfg ids2 s) := by
  unfold runBatch
  have hses := runSessions_ids fuel cfg ids1 ids2 cfg.studySessions 0 0 s
  cases h1 : runSessions fuel cfg ids1 cfg.studySessions 0 s with
  | none =>
    cases h2 : runSessions fuel cfg ids2 cfg.studySessions 0 s with
    | none => rfl
    | some t2 => rw [h1, h2] at hses; exact absurd hses (by simp)
  | some t1 =>
    cases h2 : runSessions fuel cfg ids2 cfg.studySessions 0 s with
    | none => rw [h1, h2] at hses; exact absurd hses (by simp)
    | some t2 =>
      rw [h1, h2] at hses
      obtain ⟨r1, u1, s1⟩ := t1
      obtain ⟨r2, u2, s2⟩ := t2
      simp only [Option.map_some', Option.some.injEq, Prod.mk.injEq] at hses
      simp only [Option.map_some', Option.some.injEq]
      exact hses.1

theorem bind_none_of_forall {α β : Type} (o : Option α) (f : α → Option β)
    (h : ∀ a, f a = none) : o.bind f = none := by
  cases o
  · rfl
  · exact h _

/-- C9: a configuration missing any required field makes the run abort
before any grid generation, and no output document is produced — the model
`program` returns `none`, and `runBatch` (the only producer of an output)
is never entered. -/
theorem claim_C9 (fuel : Nat) (raw : RawConfig) (ids : Nat → String)
    (s : RngSt)
    (h : raw.gridWidth = none ∨ raw.gridHeight = none ∨
      raw.gridMinValue = none ∨ raw.gridMaxValue = none ∨
      raw.gridTargetNumber = none ∨
      raw.gridTargetNumberInclusionProbability = none ∨
      raw.gridNumberOfStimuli = none ∨ raw.studyConditions = none ∨
      raw.studyNumberOfGridsPerCondition = none ∨
      raw.studySessions = none) :
    program fuel raw ids s = none := by
  have hp : parseConfig raw = none := by
    unfold parseConfig
    rcases h with h|h|h|h|h|h|h|h|h|h
    · rw [h]; rfl
    · refine bind_none_of_forall _ _ fun a => ?_
      rw [h]; rfl
    · refine bind_none_of_forall _ _ fun a => ?_
      refine bind_none_of_forall _ _ fun a2 => ?_
      rw [h]; rfl
    · refine bind_none_of_forall _ _ fun a => ?_
      refine bind_none_of_forall _ _ fun a2 => ?_
      refine bind_none_of_forall _ _ fun a3 => ?_
      rw [h]; rfl
    · refine bind_none_of_forall _ _ fun a => ?_
      refine bind_none_of_forall _ _ fun a2 => ?_
      refine bind_none_of_forall _ _ fun a3 => ?_
      refine bind_none_of_forall _ _ fun a4 => ?_
      rw [h]; rfl
    · refine bind_none_of_forall _ _ fun a => ?_
      refine bind_none_of_forall _ _ fun a2 => ?_
      refine bind_none_of_forall _ _ fun a3 => ?_
      refine bind_none_of_forall _ _ fun a4 => ?_
      refine bind_none_of_forall _ _ fun a5 => ?_
      rw [h]; rfl
    · refine bind_none_of_forall _ _ fun a => ?_
      refine bind_none_of_forall _ _ fun a2 => ?_
      refine bind_none_of_forall _ _ fun a3 => ?_
      refine bind_none_of_forall _ _ fun a4 => ?_
      refine bind_none_of_forall _ _ fun a5 => ?_
      refine bind_none_of_forall _ _ fun a6 => ?_
      rw [h]; rfl
    · refine bind_none_of_forall _ _ fun a => ?_
      refine bind_none_of_forall _ _ fun a2 => ?_
      refine bind_none_of_forall _ _ fun a3 => ?_
      refine bind_none_of_forall _ _ fun a4 => ?_
      refine bind_none_of_forall _ _ fun a5 => ?_
      refine bind_none_of_forall _ _ fun a6 => ?_
      refine bind_none_of_forall _ _ fun a7 => ?_
      rw [h]; rfl
    · refine bind_none_of_forall _ _ fun a => ?_
      refine bind_none_of_forall _ _ fun a2 => ?_
      refine bind_none_of_forall _ _ fun a3 => ?_
      refine bind_none_of_forall _ _ fun a4 => ?_
      refine bind_none_of_forall _ _ fun a5 => ?_
      refine bind_none_of_forall _ _ fun a6 => ?_
      refine bind_none_of_forall _ _ fun a7 => ?_
      refine bind_none_of_forall _ _ fun a8 => ?_
      rw [h]; rfl
    · refine bind_none_of_forall _ _ fun a => ?_
      refine bind_none_of_forall _ _ fun a2 => ?_
      refine bind_none_of_forall _ _ fun a3 => ?_
      refine bind_none_of_forall _ _ fun a4 => ?_
      refine bind_none_of_forall _ _ fun a5 => ?_
      refine bind_none_of_forall _ _ fun a6 => ?_
      refine bind_none_of_forall _ _ fun a7 => ?_
      refine bind_none_of_forall _ _ fun a8 => ?_
      refine bind_none_of_forall _ _ fun a9 => ?_
      rw [h]; rfl
  unfold program
  rw [hp]
  rfl

theorem claim_C9_witness :
    rawW.gridWidth = none ∧ program 5 rawW ids0 sZero = none :=
  ⟨rfl, claim_C9 5 rawW ids0 sZero (Or.inl rfl)⟩
